import Mathlib

/-!
Shallow embedding of `src/bin/shard.rs` (xdp-port): a controller that runs a
multi-port UDP RPC echo service, watches per-port request counters, and — once
traffic on the primary port has been seen and a 5-second grace period has
elapsed — activates kernel-level packet steering (`shard_ports`) exactly once,
while each main-loop iteration diffs stats snapshots and reports positive
deltas.

Machine integers (`u16` ports, `usize` counters) are modelled as `Nat`: the
program only compares them with `0` and never performs arithmetic that could
overflow. Fallible operations are modelled with `Option`/`Except`; a Rust
panic (`unwrap` on `Err`, out-of-bounds index) is a distinguished outcome
constructor.
-/

/-! ## Activation Gate: `dump_ctrs`, lines 18-48

`dump_ctrs` samples every counter each interval, producing a list of counts in
the configured port order (`ctrs.iter().map(|(port, ctr)| ...)`), and breaks
out of its first loop as soon as `counts[0].1 > 0`, i.e. as soon as the first
(primary) entry's sampled value is nonzero. Indexing `counts[0]` on an empty
vector panics. We model the detection phase as a function of the finite
sequence of sample vectors observed, one vector per loop iteration. -/

/-- Outcome of the detection phase of `dump_ctrs` over a finite sequence of
sample vectors: it signals at the index of the sample that made it break,
panics at the index where `counts[0]` was out of bounds, or runs out of
samples without breaking. -/
inductive GateOutcome where
  | signaled (i : Nat)
  | panicked (i : Nat)
  | ranOut
  deriving DecidableEq, Repr

/-- The detection loop of `dump_ctrs` (lines 23-33): for each sample vector
`counts`, read `counts[0]` (panic if out of bounds) and break when the value
is `> 0`; otherwise sleep and sample again. -/
def detectLoop : List (List Nat) → GateOutcome
  | [] => GateOutcome.ranOut
  | counts :: rest =>
    match counts.get? 0 with
    | none => GateOutcome.panicked 0
    | some v =>
      if 0 < v then GateOutcome.signaled 0
      else
        match detectLoop rest with
        | GateOutcome.signaled i => GateOutcome.signaled (i + 1)
        | GateOutcome.panicked i => GateOutcome.panicked (i + 1)
        | GateOutcome.ranOut => GateOutcome.ranOut

/-- Sampling the counters (lines 25-28): `ctrs` has one entry per configured
port; at time `t` counter `i` holds `vals t i`. A sample vector is the list of
all `n` counter values in configured order. -/
def sampleCounts (n : Nat) (vals : Nat → Nat → Nat) (t : Nat) : List Nat :=
  (List.range n).map (vals t)

/-- The first `k` sample vectors taken by the gate over `n` counters. -/
def samplesOf (n : Nat) (vals : Nat → Nat → Nat) (k : Nat) : List (List Nat) :=
  (List.range k).map (sampleCounts n vals)

/-- Result of sending on the one-shot first-traffic channel and unwrapping
(line 37): `tokio::sync::oneshot::Sender::send` returns `Err` exactly when the
receiver has been dropped, and `.unwrap()` turns that `Err` into a panic. -/
inductive SendOutcome where
  | sent
  | panicked
  deriving DecidableEq, Repr

/-- `first_done.send(()).unwrap()` (line 37), as a function of whether the
consumer side of the one-shot channel has been dropped. -/
def emitFirstTraffic (receiverDropped : Bool) : SendOutcome :=
  if receiverDropped then SendOutcome.panicked else SendOutcome.sent

/-! ## Quiescence Timer: the spawned task at lines 91-96

The task awaits the one-shot first-traffic signal, sleeps 5 seconds, and then
sends the one-time enable signal. We model it as a straight-line program of
timed actions and compute the completion time of each action: awaiting the
first-traffic signal cannot complete before the signal is sent at time
`tFirst`, and a sleep advances the clock by at least its duration. -/

/-- The three actions of the quiescence-timer task, in program order. -/
inductive TimerAction where
  | awaitFirst
  | sleep (secs : Nat)
  | sendEnable
  deriving DecidableEq, Repr

/-- The quiescence-timer task body (lines 93-95): `rx.await`, then
`thread::sleep(Duration::from_secs(5))`, then `start_sharding_tx.send(())`. -/
def timerProg : List TimerAction :=
  [TimerAction.awaitFirst, TimerAction.sleep 5, TimerAction.sendEnable]

/-- Completion time of one timer action started at clock `t`, where `tFirst`
is the time the first-traffic signal is sent: an await of the one-shot channel
completes no earlier than the signal, a sleep advances the clock by its
duration, and a send is immediate. -/
def stepTime (tFirst t : Nat) : TimerAction → Nat
  | TimerAction.awaitFirst => max t tFirst
  | TimerAction.sleep secs => t + secs
  | TimerAction.sendEnable => t

/-- The times at which the enable signal is sent during an execution of a
timer program started at clock `t0`. -/
def sendTimes (tFirst t0 : Nat) : List TimerAction → List Nat
  | [] => []
  | a :: rest =>
    match a with
    | TimerAction.sendEnable => stepTime tFirst t0 a :: sendTimes tFirst (stepTime tFirst t0 a) rest
    | _ => sendTimes tFirst (stepTime tFirst t0 a) rest

/-! ## Sharding Controller: the main loop, lines 110-133

Each iteration checks the stop flag, does a non-blocking `try_recv` on the
enable channel (invoking `prog.shard_ports(opt.ports[0], &opt.ports[1..], 0, 4)`
whenever it returns `Ok`, with `?` propagating a failure), fetches the stats
snapshots, diffs them, and reports every entry with a positive count.

`xdp_shard::BpfHandles::{load_on_interface_name, shard_ports, get_stats}`,
`get_rxq_cpu_port_count` and `xdp_shard::diff_maps` belong to the external
`xdp_shard` crate (the spec's external steering subsystem), so the loop is
modelled against an environment trace: for each iteration the environment
supplies the stop-flag value, the `try_recv` result, whether a `shard_ports`
call would fail, and either the diffed snapshot the loop iterates over at
lines 124-132 or a stats-fetch error propagated at line 119.

Note line 111: `std::time::Duration::from_secs(1);` constructs a `Duration`
and immediately discards it. It is a bare expression statement, not a call to
`std::thread::sleep`, so the loop body contains no sleep at all. -/

/-- `stats.get_rxq_cpu_port_count()` shape: receive-queue index → CPU index →
list of (port, count) pairs. After `diff_maps`, counts are per-window deltas. -/
abbrev Snapshot := List (List (List (Nat × Nat)))

/-- A reported tuple (line 128): (rxqueue, cpu, port, count). -/
abbrev Report := Nat × Nat × Nat × Nat

/-- Innermost reporting loop (lines 126-130): over one `portcounts` list at
fixed `rxq` and `cpu`, report `(rxq, cpu, port, count)` when `count > 0`. -/
def reportsOfPorts (rxq cpu : Nat) (pcs : List (Nat × Nat)) : List Report :=
  (pcs.filter (fun pc => 0 < pc.2)).map (fun pc => (rxq, cpu, pc.1, pc.2))

/-- Middle reporting loop (line 125): `cpus.iter().enumerate()` starting at
CPU index `cpu`. -/
def reportsOfCpus (rxq : Nat) : Nat → List (List (Nat × Nat)) → List Report
  | _, [] => []
  | cpu, pcs :: rest => reportsOfPorts rxq cpu pcs ++ reportsOfCpus rxq (cpu + 1) rest

/-- Outer reporting loop (line 124): `rxqs.iter().enumerate()` starting at
receive-queue index `rxq`. -/
def reportedTuplesFrom : Nat → Snapshot → List Report
  | _, [] => []
  | rxq, cpus :: rest => reportsOfCpus rxq 0 cpus ++ reportedTuplesFrom (rxq + 1) rest

/-- All tuples reported for one diffed snapshot (lines 124-132). -/
def reportedTuples (s : Snapshot) : List Report :=
  reportedTuplesFrom 0 s

/-- The arguments of one `prog.shard_ports(...)` invocation (line 115). -/
structure ShardArgs where
  primary : Nat
  others : List Nat
  keyOffset : Nat
  keyLen : Nat
  deriving DecidableEq, Repr

/-- Environment behaviour observed by one main-loop iteration: the stop-flag
value read at line 110, the `start_sharding_rx.try_recv()` result at line 112
(`some ()` for `Ok`), whether a `shard_ports` call made this iteration returns
`Err` (line 115), and the `get_stats` outcome at line 119 — on success, the
diffed snapshot the reporting loops iterate over. -/
structure IterEnv where
  stopFlag : Bool
  recv : Option Unit
  shardErr : Bool
  statsRes : Except Unit Snapshot

/-- How the main loop terminated (relative to a finite environment trace). -/
inductive LoopResult where
  | stopped
  | errored
  | panicked
  | ranOut
  deriving DecidableEq, Repr

/-- Accumulated observable behaviour of the main loop: exit mode, the
`shard_ports` invocations in order, the reported tuples in order, the number
of iteration bodies entered, and the total seconds the loop slept. -/
structure LoopOut where
  result : LoopResult
  shardCalls : List ShardArgs
  reports : List Report
  executed : Nat
  sleptSecs : Nat
  deriving Repr

/-- Seconds slept by one main-loop iteration. Line 111 is
`std::time::Duration::from_secs(1);` — it builds a `Duration` and drops it
without ever calling `std::thread::sleep`, so the iteration sleeps 0 seconds. -/
def iterSleepSecs : Nat := 0

/-- The main loop (lines 110-133), run against a finite environment trace.
While the stop flag is false: sleep `iterSleepSecs` (line 111 — see its
docstring), call `shard_ports(ports[0], &ports[1..], 0, 4)` if `try_recv`
returned `Ok` (`ports[0]` panics when `ports` is empty; `?` propagates an
`Err`), then fetch/diff stats (`?` propagates an `Err`) and report positive
deltas. -/
def runLoop (ports : List Nat) : List IterEnv → LoopOut
  | [] => ⟨LoopResult.ranOut, [], [], 0, 0⟩
  | e :: rest =>
    if e.stopFlag then ⟨LoopResult.stopped, [], [], 0, 0⟩
    else
      match e.recv with
      | some _ =>
        match ports with
        | [] => ⟨LoopResult.panicked, [], [], 1, iterSleepSecs⟩
        | p :: others =>
          if e.shardErr then
            ⟨LoopResult.errored, [⟨p, others, 0, 4⟩], [], 1, iterSleepSecs⟩
          else
            match e.statsRes with
            | Except.error _ =>
              ⟨LoopResult.errored, [⟨p, others, 0, 4⟩], [], 1, iterSleepSecs⟩
            | Except.ok diffed =>
              let o := runLoop (p :: others) rest
              ⟨o.result, ⟨p, others, 0, 4⟩ :: o.shardCalls,
                reportedTuples diffed ++ o.reports, o.executed + 1,
                iterSleepSecs + o.sleptSecs⟩
      | none =>
        match e.statsRes with
        | Except.error _ => ⟨LoopResult.errored, [], [], 1, iterSleepSecs⟩
        | Except.ok diffed =>
          let o := runLoop ports rest
          ⟨o.result, o.shardCalls, reportedTuples diffed ++ o.reports,
            o.executed + 1, iterSleepSecs + o.sleptSecs⟩

/-- Whether an iteration with environment `e` runs its body to completion and
proceeds to the next loop test: the stop flag was false, any `shard_ports`
call neither panicked on `ports[0]` nor returned `Err`, and `get_stats`
succeeded. Read off the early exits of `runLoop`. -/
def iterContinues (ports : List Nat) (e : IterEnv) : Bool :=
  !e.stopFlag &&
    (match e.recv with
     | some _ => !ports.isEmpty && !e.shardErr
     | none => true) &&
    (match e.statsRes with
     | Except.ok _ => true
     | Except.error _ => false)

/-- Number of iterations of a trace whose `try_recv` returned `Ok`, i.e. the
number of enable signals delivered to the loop. -/
def okRecvCount (trace : List IterEnv) : Nat :=
  (trace.filter (fun e => e.recv.isSome)).length

/-- Process-level outcome of `main` (lines 98-136): a failed
`load_on_interface_name` propagates out of `main` before the loop (exit code
1); otherwise the loop runs — exiting it returns `Ok(())` (exit code 0), a
propagated error exits 1, a panic aborts, and with trace not yet exhausted
the process is still running. -/
inductive ProcOutcome where
  | exited (code : Nat)
  | running
  | panicked
  deriving DecidableEq, Repr

/-- `main` from line 98 on, against an environment trace: `loadOk` is whether
`xdp_shard::BpfHandles::load_on_interface_name(&opt.interface)` succeeded. -/
def runMain (loadOk : Bool) (ports : List Nat) (trace : List IterEnv) : ProcOutcome :=
  if loadOk then
    match (runLoop ports trace).result with
    | LoopResult.stopped => ProcOutcome.exited 0
    | LoopResult.errored => ProcOutcome.exited 1
    | LoopResult.panicked => ProcOutcome.panicked
    | LoopResult.ranOut => ProcOutcome.running
  else ProcOutcome.exited 1

theorem detectLoop_example : detectLoop [[0, 3], [0, 0], [2, 0]] = GateOutcome.signaled 2 := by
  decide

/-! ## Lemmas about the detection loop -/

theorem detectLoop_cons_cons (v : Nat) (tl : List Nat) (rest : List (List Nat)) :
    detectLoop ((v :: tl) :: rest) =
      if 0 < v then GateOutcome.signaled 0
      else
        match detectLoop rest with
        | GateOutcome.signaled i => GateOutcome.signaled (i + 1)
        | GateOutcome.panicked i => GateOutcome.panicked (i + 1)
        | GateOutcome.ranOut => GateOutcome.ranOut := rfl

theorem detectLoop_nil_sample (rest : List (List Nat)) :
    detectLoop ([] :: rest) = GateOutcome.panicked 0 := rfl

theorem detectLoop_no_panic :
    ∀ xs : List (List Nat), (∀ s ∈ xs, s ≠ []) →
      ∀ i, detectLoop xs ≠ GateOutcome.panicked i := by
  intro xs
  induction xs with
  | nil => intro _ i; simp [detectLoop]
  | cons c rest ih =>
    intro h i
    have hrest : ∀ s ∈ rest, s ≠ [] := fun s hs => h s (List.mem_cons_of_mem _ hs)
    cases c with
    | nil => exact absurd rfl (h [] (List.mem_cons_self _ _))
    | cons v tl =>
      rw [detectLoop_cons_cons]
      by_cases hv : 0 < v
      · simp [hv]
      · simp only [hv, if_false]
        cases hd : detectLoop rest with
        | signaled j => simp
        | panicked j => exact absurd hd (ih hrest j)
        | ranOut => simp

theorem detectLoop_signals_iff :
    ∀ xs : List (List Nat), (∀ s ∈ xs, s ≠ []) →
      ((∃ i, detectLoop xs = GateOutcome.signaled i) ↔ ∃ s ∈ xs, 0 < s.headD 0) := by
  intro xs
  induction xs with
  | nil => intro _; simp [detectLoop]
  | cons c rest ih =>
    intro h
    have hrest : ∀ s ∈ rest, s ≠ [] := fun s hs => h s (List.mem_cons_of_mem _ hs)
    cases c with
    | nil => exact absurd rfl (h [] (List.mem_cons_self _ _))
    | cons v tl =>
      rw [detectLoop_cons_cons]
      by_cases hv : 0 < v
      · simp [hv]
      · simp only [hv, if_false]
        constructor
        · intro ⟨i, hi⟩
          cases hd : detectLoop rest with
          | signaled j =>
            have := (ih hrest).mp ⟨j, hd⟩
            obtain ⟨s, hs, hpos⟩ := this
            exact ⟨s, List.mem_cons_of_mem _ hs, hpos⟩
          | panicked j => rw [hd] at hi; exact absurd hi (by simp)
          | ranOut => rw [hd] at hi; exact absurd hi (by simp)
        · intro ⟨s, hs, hpos⟩
          rcases List.mem_cons.mp hs with heq | hmem
          · subst heq; simp at hpos; exact absurd hpos hv
          · obtain ⟨j, hj⟩ := (ih hrest).mpr ⟨s, hmem, hpos⟩
            exact ⟨j + 1, by rw [hj]⟩

theorem detectLoop_primary_only :
    ∀ xs ys : List (List Nat), (∀ s ∈ xs, s ≠ []) → (∀ s ∈ ys, s ≠ []) →
      xs.map (fun s => s.headD 0) = ys.map (fun s => s.headD 0) →
      detectLoop xs = detectLoop ys := by
  intro xs
  induction xs with
  | nil =>
    intro ys _ _ hmap
    cases ys with
    | nil => rfl
    | cons t ts => exact absurd hmap (by simp)
  | cons c rest ih =>
    intro ys hx hy hmap
    cases ys with
    | nil => exact absurd hmap (by simp)
    | cons t ts =>
      have hxrest : ∀ s ∈ rest, s ≠ [] := fun s hs => hx s (List.mem_cons_of_mem _ hs)
      have hyrest : ∀ s ∈ ts, s ≠ [] := fun s hs => hy s (List.mem_cons_of_mem _ hs)
      simp only [List.map_cons, List.cons.injEq] at hmap
      obtain ⟨hhead, htail⟩ := hmap
      cases c with
      | nil => exact absurd rfl (hx [] (List.mem_cons_self _ _))
      | cons v vtl =>
        cases t with
        | nil => exact absurd rfl (hy [] (List.mem_cons_self _ _))
        | cons w wtl =>
          simp only [List.headD_cons] at hhead
          subst hhead
          rw [detectLoop_cons_cons, detectLoop_cons_cons,
            ih ts hxrest hyrest htail]

/-! ## Claim theorems for the Activation Gate and Quiescence Timer -/

/-- C3: over any finite sequence of counter samples (each sample taken over a
non-empty port list), the detection phase of `dump_ctrs` exits and signals
first traffic iff some sampled value of the primary (first-configured) port's
counter is nonzero; moreover the outcome depends only on the primary column of
the samples, so nonzero samples of non-primary counters have no effect. -/
theorem gate_signals_iff_primary_nonzero (samples : List (List Nat))
    (h : ∀ s ∈ samples, s ≠ []) :
    ((∃ i, detectLoop samples = GateOutcome.signaled i) ↔ ∃ s ∈ samples, 0 < s.headD 0)
    ∧ ∀ t : List (List Nat), (∀ s ∈ t, s ≠ []) →
        samples.map (fun s => s.headD 0) = t.map (fun s => s.headD 0) →
        detectLoop samples = detectLoop t := by
  exact ⟨detectLoop_signals_iff samples h,
    fun t ht hmap => detectLoop_primary_only samples t h ht hmap⟩

theorem gate_signals_iff_primary_nonzero_w :
    ((∃ i, detectLoop [[0, 5], [3, 0]] = GateOutcome.signaled i) ↔
      ∃ s ∈ [[0, 5], [3, 0]], 0 < s.headD 0)
    ∧ detectLoop [[0, 5], [3, 0]] = detectLoop [[0, 9], [3, 7]] := by
  have h := gate_signals_iff_primary_nonzero [[0, 5], [3, 0]] (by decide)
  exact ⟨h.1, h.2 [[0, 9], [3, 7]] (by decide) (by decide)⟩

/-- C4: the quiescence-timer task sends the enable signal exactly once, and
never earlier than the first-traffic signal time plus the 5-second grace
period: it first awaits the first-traffic signal (completing no earlier than
`tFirst`), then sleeps 5 seconds, and only then sends. -/
theorem enable_not_before_first_traffic_plus_grace (tFirst t0 : Nat) :
    (sendTimes tFirst t0 timerProg).length = 1
    ∧ ∀ ts ∈ sendTimes tFirst t0 timerProg, tFirst + 5 ≤ ts := by
  constructor
  · rfl
  · intro ts hts
    simp only [timerProg, sendTimes, stepTime] at hts
    simp only [List.mem_singleton] at hts
    subst hts
    have := Nat.le_max_right t0 tFirst
    omega

theorem enable_not_before_first_traffic_plus_grace_w :
    (sendTimes 10 0 timerProg).length = 1 ∧ 10 + 5 ≤ 15 := by
  refine ⟨(enable_not_before_first_traffic_plus_grace 10 0).1, ?_⟩
  exact (enable_not_before_first_traffic_plus_grace 10 0).2 15 (by decide)

/-- C9: emitting the single-use first-traffic signal panics precisely when the
consumer side of the one-shot channel has been dropped — `send` returns `Err`
in exactly that case and `dump_ctrs` unwraps it, so the condition is fatal and
is neither caught nor retried. -/
theorem first_traffic_emit_panics_iff_receiver_dropped :
    ∀ receiverDropped : Bool,
      emitFirstTraffic receiverDropped = SendOutcome.panicked ↔ receiverDropped = true := by
  intro d
  cases d <;> simp [emitFirstTraffic]

/-- C10: the detection phase needs a non-empty (port, counter) list: with zero
configured counters every sample vector is empty, so the very first iteration
indexes position 0 of an empty sequence and panics; with at least one counter
the index is in bounds on every iteration and the gate never panics. -/
theorem gate_primary_index_safety (n k : Nat) (vals : Nat → Nat → Nat) (hk : 0 < k) :
    (n = 0 → detectLoop (samplesOf n vals k) = GateOutcome.panicked 0)
    ∧ (0 < n → ∀ i, detectLoop (samplesOf n vals k) ≠ GateOutcome.panicked i) := by
  constructor
  · intro hn
    subst hn
    cases k with
    | zero => exact absurd hk (by simp)
    | succ m =>
      rw [samplesOf, List.range_succ_eq_map]
      simp only [List.map_cons]
      have h0 : sampleCounts 0 vals 0 = [] := rfl
      rw [h0, detectLoop_nil_sample]
  · intro hn i
    apply detectLoop_no_panic
    intro s hs
    rw [samplesOf] at hs
    obtain ⟨t, _, rfl⟩ := List.mem_map.mp hs
    have : (sampleCounts n vals t).length = n := by
      simp [sampleCounts]
    intro hnil
    rw [hnil] at this
    simp at this
    omega

theorem gate_primary_index_safety_w :
    detectLoop (samplesOf 0 (fun _ _ => 7) 1) = GateOutcome.panicked 0
    ∧ ∀ i, detectLoop (samplesOf 2 (fun _ _ => 7) 1) ≠ GateOutcome.panicked i := by
  have h0 := gate_primary_index_safety 0 1 (fun _ _ => 7) (by decide)
  have h2 := gate_primary_index_safety 2 1 (fun _ _ => 7) (by decide)
  exact ⟨h0.1 rfl, h2.2 (by decide)⟩

/-! ## Lemmas about the main loop -/

theorem runLoop_shardCalls_le_okRecv (ports : List Nat) :
    ∀ trace : List IterEnv,
      (runLoop ports trace).shardCalls.length ≤ okRecvCount trace := by
  intro trace
  induction trace with
  | nil => simp [runLoop, okRecvCount]
  | cons e rest ih =>
    obtain ⟨stop, recv, serr, sres⟩ := e
    cases stop with
    | true => simp [runLoop, okRecvCount]
    | false =>
      cases recv with
      | none =>
        cases sres with
        | error u => simp [runLoop, okRecvCount, List.filter_cons]
        | ok diffed =>
          simpa [runLoop, okRecvCount, List.filter_cons] using ih
      | some u =>
        cases ports with
        | nil => simp [runLoop, okRecvCount, List.filter_cons]
        | cons p others =>
          cases serr with
          | true => simp [runLoop, okRecvCount, List.filter_cons]
          | false =>
            cases sres with
            | error u => simp [runLoop, okRecvCount, List.filter_cons]
            | ok diffed =>
              simp only [runLoop, okRecvCount, List.filter_cons] at *
              simpa using ih

theorem runLoop_stopped_stopFlag (ports : List Nat) :
    ∀ trace : List IterEnv, (runLoop ports trace).result = LoopResult.stopped →
      ∃ i e, trace.get? i = some e ∧ e.stopFlag = true := by
  intro trace
  induction trace with
  | nil => intro h; simp [runLoop] at h
  | cons e rest ih =>
    intro h
    obtain ⟨stop, recv, serr, sres⟩ := e
    cases stop with
    | true => exact ⟨0, ⟨true, recv, serr, sres⟩, rfl, rfl⟩
    | false =>
      have step : ∀ i e', rest.get? i = some e' → e'.stopFlag = true →
          ∃ i e'', (IterEnv.mk false recv serr sres :: rest).get? i = some e''
            ∧ e''.stopFlag = true :=
        fun i e' hget hflag => ⟨i + 1, e', hget, hflag⟩
      cases recv with
      | none =>
        cases sres with
        | error u => simp [runLoop] at h
        | ok diffed =>
          simp only [runLoop] at h
          obtain ⟨i, e', hget, hflag⟩ := ih h
          exact step i e' hget hflag
      | some u =>
        cases ports with
        | nil => simp [runLoop] at h
        | cons p others =>
          cases serr with
          | true => simp [runLoop] at h
          | false =>
            cases sres with
            | error u => simp [runLoop] at h
            | ok diffed =>
              simp only [runLoop] at h
              obtain ⟨i, e', hget, hflag⟩ := ih h
              exact step i e' hget hflag

theorem runLoop_errored_halts_at_first_fault (ports : List Nat) :
    ∀ trace : List IterEnv, (runLoop ports trace).result = LoopResult.errored →
      ∃ i e, trace.get? i = some e ∧ e.stopFlag = false
        ∧ iterContinues ports e = false
        ∧ (runLoop ports trace).executed = i + 1 := by
  intro trace
  induction trace with
  | nil => intro h; simp [runLoop] at h
  | cons e rest ih =>
    intro h
    obtain ⟨stop, recv, serr, sres⟩ := e
    cases stop with
    | true => simp [runLoop] at h
    | false =>
      cases recv with
      | none =>
        cases sres with
        | error u =>
          refine ⟨0, ⟨false, none, serr, Except.error u⟩, rfl, rfl, ?_, ?_⟩
          · simp [iterContinues]
          · simp [runLoop]
        | ok diffed =>
          simp [runLoop] at h
          obtain ⟨i, e', hget, hsf, hic, hex⟩ := ih h
          exact ⟨i + 1, e', hget, hsf, hic, by simp [runLoop]; omega⟩
      | some u =>
        cases ports with
        | nil => simp [runLoop] at h
        | cons p others =>
          cases serr with
          | true =>
            refine ⟨0, ⟨false, some u, true, sres⟩, rfl, rfl, ?_, ?_⟩
            · simp [iterContinues]
            · simp [runLoop]
          | false =>
            cases sres with
            | error u =>
              refine ⟨0, ⟨false, some u, false, Except.error u⟩, rfl, rfl, ?_, ?_⟩
              · simp [iterContinues]
              · simp [runLoop]
            | ok diffed =>
              simp [runLoop] at h
              obtain ⟨i, e', hget, hsf, hic, hex⟩ := ih h
              exact ⟨i + 1, e', hget, hsf, hic, by simp [runLoop]; omega⟩

theorem runLoop_sleptSecs_zero (ports : List Nat) :
    ∀ trace : List IterEnv, (runLoop ports trace).sleptSecs = 0 := by
  intro trace
  induction trace with
  | nil => simp [runLoop]
  | cons e rest ih =>
    obtain ⟨stop, recv, serr, sres⟩ := e
    cases stop with
    | true => simp [runLoop]
    | false =>
      cases recv with
      | none =>
        cases sres with
        | error u => simp [runLoop, iterSleepSecs]
        | ok diffed => simp [runLoop, iterSleepSecs, ih]
      | some u =>
        cases ports with
        | nil => simp [runLoop, iterSleepSecs]
        | cons p others =>
          cases serr with
          | true => simp [runLoop, iterSleepSecs]
          | false =>
            cases sres with
            | error u => simp [runLoop, iterSleepSecs]
            | ok diffed => simp [runLoop, iterSleepSecs, ih]

/-! ## Claim theorems for the Sharding Controller -/

/-- C1, counterexample to the claim as stated: the loop body has no guard, so
if two enable signals were delivered on the channel, `shard_ports` would be
invoked twice — the at-most-once bound does not hold "no matter how many
enable signals are delivered". -/
theorem shard_ports_twice_under_two_deliveries :
    ¬ ((runLoop [5001, 5002]
        [⟨false, some (), false, Except.ok []⟩,
         ⟨false, some (), false, Except.ok []⟩]).shardCalls.length ≤ 1) := by
  decide

/-- C1 (amended): `shard_ports` is invoked at most once per process lifetime
because the quiescence timer sends exactly one enable signal, so at most one
`try_recv` ever succeeds; the bound comes from the single-shot producer, not
from any guard in the loop. -/
theorem shard_ports_at_most_once (ports : List Nat) (trace : List IterEnv)
    (h : okRecvCount trace ≤ (sendTimes 0 0 timerProg).length) :
    (runLoop ports trace).shardCalls.length ≤ 1 := by
  have hs : (sendTimes 0 0 timerProg).length = 1 := rfl
  rw [hs] at h
  exact le_trans (runLoop_shardCalls_le_okRecv ports trace) h

theorem shard_ports_at_most_once_w :
    (runLoop [5001, 5002]
        [⟨false, none, false, Except.ok []⟩,
         ⟨false, some (), false, Except.ok []⟩]).shardCalls.length ≤ 1 :=
  shard_ports_at_most_once _ _ (by decide)

/-- C2, counterexample to the claim as stated: there is no `ShardingState`
value in the controller — the loop invokes `shard_ports` on every `Ok` from
`try_recv`, so a second delivered enable signal triggers a second invocation
instead of being ignored by a state guard. -/
theorem second_enable_signal_not_ignored :
    (runLoop [7000, 7001, 7002]
        [⟨false, some (), false, Except.ok []⟩,
         ⟨false, none, false, Except.ok []⟩,
         ⟨false, some (), false, Except.ok []⟩]).shardCalls =
      [⟨7000, [7001, 7002], 0, 4⟩, ⟨7000, [7001, 7002], 0, 4⟩] := by
  decide

/-- C2 (amended): the controller keeps no Disabled/Enabled state; in any run
that neither stops nor faults, the number of `shard_ports` invocations equals
the number of enable signals received. Activation happens at most once only
because the one-shot producer delivers at most one signal, not because later
signals would be ignored. -/
theorem shard_call_per_enable_signal (p : Nat) (others : List Nat)
    (trace : List IterEnv)
    (h : ∀ e ∈ trace, e.stopFlag = false ∧ e.shardErr = false
      ∧ ∃ s, e.statsRes = Except.ok s) :
    (runLoop (p :: others) trace).shardCalls.length = okRecvCount trace := by
  induction trace with
  | nil => simp [runLoop, okRecvCount]
  | cons e rest ih =>
    obtain ⟨hstop, hserr, s, hok⟩ := h e (List.mem_cons_self _ _)
    have hrest := fun e' he' => h e' (List.mem_cons_of_mem _ he')
    obtain ⟨stop, recv, serr, sres⟩ := e
    simp only at hstop hserr hok
    subst hstop
    subst hserr
    subst hok
    cases recv with
    | none => simpa [runLoop, okRecvCount, List.filter_cons] using ih hrest
    | some u =>
      simp only [runLoop, okRecvCount, List.filter_cons, Option.isSome_some,
        if_true, List.length_cons]
      simpa [okRecvCount] using ih hrest

theorem shard_call_per_enable_signal_w :
    (runLoop [9000, 9001]
        [⟨false, some (), false, Except.ok []⟩,
         ⟨false, none, false, Except.ok []⟩]).shardCalls.length =
      okRecvCount
        [⟨false, some (), false, Except.ok []⟩,
         ⟨false, none, false, Except.ok []⟩] :=
  shard_call_per_enable_signal 9000 [9001] _ (by
    intro e he
    simp only [List.mem_cons, List.not_mem_nil, or_false] at he
    rcases he with rfl | rfl
    · exact ⟨rfl, rfl, [], rfl⟩
    · exact ⟨rfl, rfl, [], rfl⟩)

/-- C5: every `shard_ports` invocation made by the main loop passes exactly
(first configured port, remaining configured ports in configured order,
key offset 0, key length 4) — the key being the first 4-byte field of the
fixed payload. -/
theorem shard_activation_arguments (ports : List Nat) (trace : List IterEnv)
    (a : ShardArgs) (h : a ∈ (runLoop ports trace).shardCalls) :
    ∃ p rest, ports = p :: rest ∧ a.primary = p ∧ a.others = rest
      ∧ a.keyOffset = 0 ∧ a.keyLen = 4 := by
  induction trace with
  | nil => simp [runLoop] at h
  | cons e rest0 ih =>
    obtain ⟨stop, recv, serr, sres⟩ := e
    cases stop with
    | true => simp [runLoop] at h
    | false =>
      cases recv with
      | none =>
        cases sres with
        | error u => simp [runLoop] at h
        | ok diffed =>
          simp [runLoop] at h
          exact ih h
      | some u =>
        cases ports with
        | nil => simp [runLoop] at h
        | cons p others =>
          cases serr with
          | true =>
            simp [runLoop] at h
            subst h
            exact ⟨p, others, rfl, rfl, rfl, rfl, rfl⟩
          | false =>
            cases sres with
            | error u =>
              simp [runLoop] at h
              subst h
              exact ⟨p, others, rfl, rfl, rfl, rfl, rfl⟩
            | ok diffed =>
              simp [runLoop] at h
              rcases h with h | h
              · subst h
                exact ⟨p, others, rfl, rfl, rfl, rfl, rfl⟩
              · exact ih h

theorem shard_activation_arguments_w :
    ∃ p rest, [5001, 5002, 5003] = p :: rest
      ∧ (ShardArgs.mk 5001 [5002, 5003] 0 4).primary = p
      ∧ (ShardArgs.mk 5001 [5002, 5003] 0 4).others = rest
      ∧ (ShardArgs.mk 5001 [5002, 5003] 0 4).keyOffset = 0
      ∧ (ShardArgs.mk 5001 [5002, 5003] 0 4).keyLen = 4 :=
  shard_activation_arguments [5001, 5002, 5003]
    [⟨false, some (), false, Except.ok []⟩] ⟨5001, [5002, 5003], 0, 4⟩ (by decide)

/-- C6: contrary to the claim, the main loop performs no sleep at all: line
111 constructs `Duration::from_secs(1)` as a bare expression and discards it
without ever calling `std::thread::sleep`, so each iteration sleeps 0 seconds
and any run of the loop sleeps 0 seconds in total. -/
theorem main_loop_never_sleeps :
    iterSleepSecs = 0
    ∧ ∀ (ports : List Nat) (trace : List IterEnv),
        (runLoop ports trace).sleptSecs = 0 :=
  ⟨rfl, runLoop_sleptSecs_zero⟩

/-! ## Lemmas about the reporting loops -/

theorem mem_reportsOfPorts (rxq cpu : Nat) (pcs : List (Nat × Nat)) (r : Report) :
    r ∈ reportsOfPorts rxq cpu pcs ↔
      ∃ port c, (port, c) ∈ pcs ∧ 0 < c ∧ r = (rxq, cpu, port, c) := by
  constructor
  · intro h
    obtain ⟨pc, hpc, hr⟩ := List.mem_map.mp h
    obtain ⟨hmem, hpos⟩ := List.mem_filter.mp hpc
    exact ⟨pc.1, pc.2, by simpa using hmem, by simpa using hpos, hr.symm⟩
  · rintro ⟨port, c, hmem, hpos, rfl⟩
    exact List.mem_map.mpr ⟨(port, c), List.mem_filter.mpr ⟨hmem, by simpa using hpos⟩, rfl⟩

theorem mem_reportsOfCpus (rxq : Nat) :
    ∀ (cpus : List (List (Nat × Nat))) (c0 : Nat) (r : Report),
      r ∈ reportsOfCpus rxq c0 cpus ↔
        ∃ j pcs, cpus.get? j = some pcs ∧ r ∈ reportsOfPorts rxq (c0 + j) pcs := by
  intro cpus
  induction cpus with
  | nil => intro c0 r; simp [reportsOfCpus]
  | cons pcs rest ih =>
    intro c0 r
    simp only [reportsOfCpus, List.mem_append]
    constructor
    · rintro (h | h)
      · exact ⟨0, pcs, rfl, by simpa using h⟩
      · obtain ⟨j, pcs', hget, hr⟩ := (ih (c0 + 1) r).mp h
        refine ⟨j + 1, pcs', by simpa using hget, ?_⟩
        rw [show c0 + (j + 1) = c0 + 1 + j by omega]
        exact hr
    · rintro ⟨j, pcs', hget, hr⟩
      cases j with
      | zero =>
        left
        have hp : pcs = pcs' := by simpa using hget
        subst hp
        simpa using hr
      | succ k =>
        right
        refine (ih (c0 + 1) r).mpr ⟨k, pcs', by simpa using hget, ?_⟩
        rw [show c0 + 1 + k = c0 + (k + 1) by omega]
        exact hr

theorem mem_reportedTuplesFrom :
    ∀ (s : Snapshot) (r0 : Nat) (r : Report),
      r ∈ reportedTuplesFrom r0 s ↔
        ∃ i cpus, s.get? i = some cpus ∧ r ∈ reportsOfCpus (r0 + i) 0 cpus := by
  intro s
  induction s with
  | nil => intro r0 r; simp [reportedTuplesFrom]
  | cons cpus rest ih =>
    intro r0 r
    simp only [reportedTuplesFrom, List.mem_append]
    constructor
    · rintro (h | h)
      · exact ⟨0, cpus, rfl, by simpa using h⟩
      · obtain ⟨i, cpus', hget, hr⟩ := (ih (r0 + 1) r).mp h
        refine ⟨i + 1, cpus', by simpa using hget, ?_⟩
        rw [show r0 + (i + 1) = r0 + 1 + i by omega]
        exact hr
    · rintro ⟨i, cpus', hget, hr⟩
      cases i with
      | zero =>
        left
        have hp : cpus = cpus' := by simpa using hget
        subst hp
        simpa using hr
      | succ k =>
        right
        refine (ih (r0 + 1) r).mpr ⟨k, cpus', by simpa using hget, ?_⟩
        rw [show r0 + 1 + k = r0 + (k + 1) by omega]
        exact hr

/-- C7: a (rxqueue, cpu, port, delta) tuple is reported for a diffed snapshot
iff that entry is present at those indices and its delta is strictly positive;
tuples with zero delta are never reported. `reportedTuples` is exactly what
each main-loop iteration appends to the report stream (see `runLoop`). -/
theorem report_iff_positive_delta (s : Snapshot) (rxq cpu port c : Nat) :
    (rxq, cpu, port, c) ∈ reportedTuples s ↔
      ∃ cpus pcs, s.get? rxq = some cpus ∧ cpus.get? cpu = some pcs
        ∧ (port, c) ∈ pcs ∧ 0 < c := by
  rw [reportedTuples, mem_reportedTuplesFrom]
  constructor
  · rintro ⟨i, cpus, hgi, hr⟩
    rw [mem_reportsOfCpus] at hr
    obtain ⟨j, pcs, hgj, hr⟩ := hr
    rw [mem_reportsOfPorts] at hr
    obtain ⟨port', c', hmem, hpos, heq⟩ := hr
    simp only [Nat.zero_add, Prod.mk.injEq] at heq
    obtain ⟨h1, h2, h3, h4⟩ := heq
    subst h1; subst h2; subst h3; subst h4
    exact ⟨cpus, pcs, hgi, hgj, hmem, hpos⟩
  · rintro ⟨cpus, pcs, hgi, hgj, hmem, hpos⟩
    refine ⟨rxq, cpus, hgi, ?_⟩
    rw [mem_reportsOfCpus]
    refine ⟨cpu, pcs, hgj, ?_⟩
    rw [mem_reportsOfPorts]
    exact ⟨port, c, hmem, hpos, by simp⟩

/-- C8: exit-status discipline of `main`: the process exits 0 iff the
steering subsystem loaded and the loop exited via the stop flag; a stopped
loop really observed the flag true; a failed load exits nonzero; and a
propagated runtime error exits nonzero with the loop halting at the very
iteration of the first fault — no fallible operation is retried. -/
theorem exit_code_discipline (loadOk : Bool) (ports : List Nat) (trace : List IterEnv) :
    (runMain loadOk ports trace = ProcOutcome.exited 0 ↔
      loadOk = true ∧ (runLoop ports trace).result = LoopResult.stopped)
    ∧ ((runLoop ports trace).result = LoopResult.stopped →
        ∃ i e, trace.get? i = some e ∧ e.stopFlag = true)
    ∧ (loadOk = false → runMain loadOk ports trace = ProcOutcome.exited 1)
    ∧ ((runLoop ports trace).result = LoopResult.errored →
        runMain true ports trace = ProcOutcome.exited 1
        ∧ ∃ i e, trace.get? i = some e ∧ e.stopFlag = false
            ∧ iterContinues ports e = false
            ∧ (runLoop ports trace).executed = i + 1) := by
  refine ⟨?_, runLoop_stopped_stopFlag ports trace, ?_, ?_⟩
  · cases loadOk with
    | false => simp [runMain]
    | true =>
      cases hres : (runLoop ports trace).result <;> simp [runMain, hres]
  · intro h
    subst h
    simp [runMain]
  · intro h
    exact ⟨by simp [runMain, h], runLoop_errored_halts_at_first_fault ports trace h⟩

theorem exit_code_discipline_w :
    runMain false [5001] [] = ProcOutcome.exited 1
    ∧ (∃ i e, ([⟨true, none, false, Except.ok []⟩] : List IterEnv).get? i = some e
        ∧ e.stopFlag = true)
    ∧ runMain true [5001] [⟨false, none, false, Except.error ()⟩]
        = ProcOutcome.exited 1 := by
  refine ⟨(exit_code_discipline false [5001] []).2.2.1 rfl, ?_, ?_⟩
  · exact (exit_code_discipline true [5001]
      [⟨true, none, false, Except.ok []⟩]).2.1 (by decide)
  · exact ((exit_code_discipline true [5001]
      [⟨false, none, false, Except.error ()⟩]).2.2.2 (by decide)).1
